import Mathlib

/-!
# Verification of the buildbot JSON status resource tree

Shallow embedding of `master/buildbot/status/web/status_json.py`:
the selection composer (`JsonResource.content`), the empty-value filter
(`FilterOut`), build addressing (`AllBuildsJsonResource` /
`PastBuildsJsonResource` / `BuildsJsonResource`), build-step child
memoization (`BuildStepsJsonResource`), and the pending-build queue
projections (`QueueJsonResource` / `SinglePendingBuildsJsonResource`).

Python values flowing through the JSON pipeline are modelled by the
mutually inductive `JValue` / `JList` / `JDict`.  A Python `dict` is an
insertion-ordered association structure here; key-based assignment
(`d[k] = v`) is `JDict.setKey`, which replaces in place or appends.
Out-of-repo collaborators (the backing status store) are modelled from
the spec and carry a `Modelled from the spec:` doc comment.
-/

mutual

/-- A Python value as seen by the JSON status code: `None`, booleans,
integers, strings, lists (tuples are converted to lists by the code
being modelled), and dicts. -/
inductive JValue where
  | null
  | jbool (b : Bool)
  | jnum (n : Int)
  | jstr (s : String)
  | jlist (xs : JList)
  | jdict (d : JDict)

/-- A Python list of `JValue`s. -/
inductive JList where
  | nil
  | cons (hd : JValue) (tl : JList)

/-- A Python dict with string keys, as an insertion-ordered association
structure (one entry per key). -/
inductive JDict where
  | nil
  | cons (k : String) (v : JValue) (tl : JDict)

end

/-- Python's membership test `x in ('', False, None, [], {}, ())` from
`FilterOut`.  Python `in` compares with `==`, and `0 == False` holds in
Python, so the integer `0` is also a member. -/
def isFalsyPy : JValue → Bool
  | .null => true
  | .jbool b => !b
  | .jnum n => n == 0
  | .jstr s => s == ""
  | .jlist .nil => true
  | .jlist (.cons _ _) => false
  | .jdict .nil => true
  | .jdict (.cons _ _ _) => false

/-- Truth of `items.all (x in falsyTuple)`: true iff every element of the list is
falsy in the sense of `isFalsyPy`.  `FilterOut` replaces a list by `None`
exactly when this holds (`if not filter(lambda x: not x in (...), items)`). -/
def allFalsyL : JList → Bool
  | .nil => true
  | .cons x tl => isFalsyPy x && allFalsyL tl

/-- The dict half of `FilterOut`'s final step: keep only the entries whose
(already filtered) value is not falsy. -/
def dropFalsy : JDict → JDict
  | .nil => .nil
  | .cons k v tl => if isFalsyPy v then dropFalsy tl else .cons k v (dropFalsy tl)

mutual

/-- Function `FilterOut` (status_json.py, lines 132-145): returns a copy with the
values equal (in Python's `==` sense) to `''`, `False`, `None`, `[]`, `{}`
or `()` removed from dicts; a list all of whose filtered elements are such
values becomes `None`. -/
def FilterOut : JValue → JValue
  | .jlist xs =>
    let items := filterOutList xs
    if allFalsyL items then .null else .jlist items
  | .jdict d => .jdict (dropFalsy (filterOutDict d))
  | v => v

/-- Source `map(FilterOut, data)` over a list. -/
def filterOutList : JList → JList
  | .nil => .nil
  | .cons x tl => .cons (FilterOut x) (filterOutList tl)

/-- Source `[(k, FilterOut(v)) for (k, v) in data.iteritems()]` over a dict. -/
def filterOutDict : JDict → JDict
  | .nil => .nil
  | .cons k v tl => .cons k (FilterOut v) (filterOutDict tl)

end

/-! ## The selection composer (`JsonResource.content`, select branch) -/

/-- Assoc-list lookup (Python `children` mapping / `path in self.children`). -/
def lookupA {κ α : Type} [DecidableEq κ] : List (κ × α) → κ → Option α
  | [], _ => none
  | (k, v) :: tl, key => if k = key then some v else lookupA tl key

/-- Assoc-list key assignment: replace in place, or append a new entry
(Python `d[k] = v`). -/
def setA {κ α : Type} [DecidableEq κ] : List (κ × α) → κ → α → List (κ × α)
  | [], key, v => [(key, v)]
  | (k, w) :: tl, key, v =>
    if k = key then (k, v) :: tl else (k, w) :: setA tl key v

/-- Dict lookup, `d[k]` / `d.get(k)`. -/
def JDict.lookup : JDict → String → Option JValue
  | .nil, _ => none
  | .cons k v tl, key => if k = key then some v else JDict.lookup tl key

/-- Dict key assignment `d[key] = v`: replaces the value in place if the
key exists, else appends the entry. -/
def JDict.setKey : JDict → String → JValue → JDict
  | .nil, key, v => .cons key v .nil
  | .cons k w tl, key, v =>
    if k = key then .cons k v tl else .cons k w (JDict.setKey tl key v)

/-- Python `d.update(r)`: assign every entry of `r` into `d`, in order. -/
def JDict.update : JDict → JDict → JDict
  | d, .nil => d
  | d, .cons k v tl => JDict.update (d.setKey k v) tl

/-- Source `s.strip('/')` from line 243: remove leading and trailing slashes. -/
def stripSlashes (s : String) : String :=
  String.mk (((s.data.dropWhile (· = '/')).reverse.dropWhile (· = '/')).reverse)

/-- Source `item.count('/')`, the sort key of the selection order (line 244). -/
def depthOf (s : String) : Nat := s.data.count '/'

/-- Helper for `splitPath`: accumulates the current segment (reversed). -/
def splitPathAux : List Char → List Char → List String
  | [], acc => if acc.isEmpty then [] else [String.mk acc.reverse]
  | c :: rest, acc =>
    if c = '/' then
      (if acc.isEmpty then [] else [String.mk acc.reverse]) ++ splitPathAux rest []
    else splitPathAux rest (c :: acc)

/-- Source `filter(None, item.split('/'))` (line 254): the non-empty
slash-separated segments of a selection path. -/
def splitPath (s : String) : List String := splitPathAux s.data []

/-- Stable insertion for the depth-descending selection order: a new item
goes after every already-placed item of greater-or-equal depth. -/
def insertDepthDesc (x : String) : List String → List String
  | [] => [x]
  | y :: ys => if depthOf y < depthOf x then x :: y :: ys else y :: insertDepthDesc x ys

/-- Source `select.sort(cmp=lambda x, y: cmp(x.count('/'), y.count('/')),
reverse=True)` (lines 244-245): stable sort by slash count, most slashes
first; ties keep input order (Python's sort is stable, also with
`reverse=True`). -/
def sortSelDesc (l : List String) : List String :=
  l.foldl (fun acc x => insertDepthDesc x acc) []

/-- A node of the status resource tree as the selection walk sees it:
`isLeaf` (twisted's stopping flag), optional help text (the `help`
class attribute), the static child mapping (`self.children`), the dynamic
resolution rule (`getChild`; `none` models twisted's `NoResource` error
page, which has no `asDict`), and the node's own rendering
(`asDict`, treated as an opaque value of the node). -/
inductive JNode where
  | mk (isLeaf : Bool) (helpText : Option String) (children : List (String × JNode))
      (dyn : String → Option JNode) (render : JDict)

def JNode.isLeaf : JNode → Bool
  | .mk l _ _ _ _ => l

def JNode.helpText : JNode → Option String
  | .mk _ h _ _ _ => h

def JNode.children : JNode → List (String × JNode)
  | .mk _ _ c _ _ => c

def JNode.dyn : JNode → String → Option JNode
  | .mk _ _ _ d _ => d

def JNode.render : JNode → JDict
  | .mk _ _ _ _ r => r

/-- Method `JsonResource.getChildWithDefault` (lines 163-177) as used by the
selection walk (segments are never empty there, so the trailing-slash
branch cannot fire): the `help` segment short-circuits to a
`HelpResource` — which, like `NoResource`, has no `asDict` and is
modelled as `none` — else look up the static children, else apply the
dynamic rule (`getChild`). -/
def JNode.getChildWithDefault (n : JNode) (seg : String) : Option JNode :=
  if seg = "help" ∧ n.helpText.isSome then none
  else
    match lookupA n.children seg with
    | some c => some c
    | none => n.dyn seg

/-- One descent step of the selection walk.  Once the walk has reached a
non-`asDict` resource (`none`), it stays there: twisted's `ErrorPage`
returns itself from `getChild`. -/
def stepChild : Option JNode → String → Option JNode
  | none, _ => none
  | some n, seg => n.getChildWithDefault seg

/-- Test `child.isLeaf` in the walk condition; error pages are not leaves. -/
def childIsLeaf : Option JNode → Bool
  | none => false
  | some n => n.isLeaf

/-- The skeleton walk of lines 255-260: `while request.postpath and not
child.isLeaf`, popping one segment at a time.  Returns the consumed
segments (those for which `node[pathElement] = {}` skeleton entries are
created) and the final child. -/
def walkSel : Option JNode → List String → List String × Option JNode
  | c, [] => ([], c)
  | c, s :: rest =>
    if childIsLeaf c then ([], c)
    else
      let res := walkSel (stepChild c s) rest
      (s :: res.1, res.2)

/-- Lines 264-269: render the resolved child, or the explicit
`{'error': 'Not available'}` marker when the child has no `asDict`. -/
def renderChild : Option JNode → JDict
  | none => .cons "error" (.jstr "Not available") .nil
  | some n => n.render

/-- The document mutation of one selection item: `node[pathElement] = {}`
for every consumed segment (always a fresh mapping, replacing whatever an
earlier item put there), then `node.update(child_dict)` at the stopping
point. -/
def overwritePath : JDict → List String → JDict → JDict
  | d, [], r => d.update r
  | d, s :: rest, r => d.setKey s (.jdict (overwritePath .nil rest r))

/-- Processing of one `select` item (lines 246-270): walk the skeleton
from the root and merge the rendered child at the stopping point. -/
def composeItem (root : JNode) (d : JDict) (item : String) : JDict :=
  let w := walkSel (some root) (splitPath item)
  overwritePath d w.1 (renderChild w.2)

/-- The whole select branch of `JsonResource.content` (lines 241-273):
strip slashes, order by slash count descending (stable), then process
each item in order against the shared output document. -/
def compose (root : JNode) (select : List String) : JDict :=
  (sortSelDesc (select.map stripSlashes)).foldl (composeItem root) .nil

/-- Path lookup in a document, for stating where content ends up. -/
def getPath : JValue → List String → Option JValue
  | v, [] => some v
  | .jdict d, s :: rest =>
    match d.lookup s with
    | some v => getPath v rest
    | none => none
  | _, _ :: _ => none

/-! ## Concrete tree instances used by witnesses and counterexamples -/

/-- A small opaque rendering distinguishing the demo nodes. -/
def tagRender (tag : Nat) : JDict := .cons "v" (.jnum tag) .nil

/-- Demo leaf-like child `b` of the demo container `a`. -/
def demoB : JNode := .mk false none [] (fun _ => none) (tagRender 2)

/-- Demo leaf-like child `c` of the demo container `a`. -/
def demoC : JNode := .mk false none [] (fun _ => none) (tagRender 3)

/-- Demo container `a` with two renderable children `b` and `c`. -/
def demoA : JNode := .mk false none [("b", demoB), ("c", demoC)] (fun _ => none) (tagRender 1)

/-- Demo root with the single static child `a` and no dynamic children. -/
def demoRoot : JNode := .mk false none [("a", demoA)] (fun _ => none) (tagRender 0)

/-- A pre-existing document entry, standing for content placed by an
earlier-processed selection item under a different top-level key. -/
def dz : JDict := .cons "z" (.jnum 9) .nil

/-! ## Build addressing (`AllBuildsJsonResource`, `PastBuildsJsonResource`,
`BuildsJsonResource`) -/

/-- A finished build as the status tree sees it: its number, the branch it
was built from, its codebase → branch/revision mapping, and its integer
result code. -/
structure Build where
  number : Nat
  branch : String
  codebases : List (String × String)
  results : Int
deriving DecidableEq

/-- The backing `BuilderStatus` collaborator: the bounded in-memory build
cache and the full persisted history, both most-recent-first. -/
structure BuilderStatus where
  cache : List Build
  history : List Build
deriving DecidableEq

/-- Modelled from the spec: `BuilderStatus.getBuild` is not part of the
given sources (the backing status store is out of scope).  Spec §4.3:
an integer `n ≥ 0` means the build literally numbered `n`; `n < 0` means
the `|n|`-th most recent build (`-1` is the latest).  Both draw from the
in-memory bounded cache only; a build outside the cache is not
retrievable and resolution fails. -/
def getBuild (bs : BuilderStatus) (n : Int) : Option Build :=
  if 0 ≤ n then bs.cache.find? (fun b => b.number == n.toNat)
  else bs.cache.get? (n.natAbs - 1)

/-- Helper: value of a digit run, `none` on the first non-digit. -/
def parseDigitsAux : List Char → Nat → Option Nat
  | [], acc => some acc
  | c :: rest, acc =>
    if c.isDigit then parseDigitsAux rest (acc * 10 + (c.toNat - '0'.toNat))
    else none

/-- Non-empty all-digit run, as required by `^[-+]?\d+$` after the sign. -/
def parseDigits (cs : List Char) : Option Nat :=
  if cs.isEmpty then none else parseDigitsAux cs 0

/-- Combined model of `_IS_INT.match(path)` (regex `^[-+]?\d+$`, line 31)
followed by `int(path)`: an optional sign then one or more digits, the
whole segment. -/
def parseSignedInt (s : String) : Option Int :=
  match s.data with
  | '-' :: rest => (parseDigits rest).map (fun n => -(n : Int))
  | '+' :: rest => (parseDigits rest).map (fun n => (n : Int))
  | l => (parseDigits l).map (fun n => (n : Int))

/-- Source `path.replace("<", "")` (line 494): drop every less-than sign. -/
def stripLt (s : String) : String := String.mk (s.data.filter (fun c => c ≠ '<'))

/-- Lines 493-497: `int(path.replace("<", ""))`, defaulting to 15 when the
parse raises `ValueError`. -/
def parseLt (s : String) : Int := (parseSignedInt (stripLt s)).getD 15

/-- The nodes reachable from a builder's builds containers: the `builds`
container itself, its `_all` child, a help page (with its text), a single
build, a last-N list node (`PastBuildsJsonResource` with its count), or
twisted's `NoResource` (resolution failure). -/
inductive BNode where
  | buildsC
  | allC
  | helpN (text : String)
  | buildN (b : Build)
  | lastN (n : Int)
  | notFound
deriving DecidableEq

/-- Help text of `BuildsJsonResource`. -/
def buildsHelp : String := "Builds that were run on a builder.\n"

/-- Help text of `AllBuildsJsonResource`. -/
def allBuildsHelp : String := "All the builds that were run on a builder.\n"

/-- Method `AllBuildsJsonResource.getChild` (lines 486-501): an integer
segment resolves through the cache-bounded `getBuild`; a segment holding
a less-than sign becomes a `PastBuildsJsonResource` with the parsed (or
defaulted) count; anything else falls through to twisted's `NoResource`. -/
def allBuildsGetChild (bs : BuilderStatus) (seg : String) : BNode :=
  match parseSignedInt seg with
  | some n =>
    match getBuild bs n with
    | some b => .buildN b
    | none => .notFound
  | none =>
    if seg.data.contains '<' then .lastN (parseLt seg) else .notFound

/-- Resolution under `.../builds/_all`: `JsonResource.getChildWithDefault`
on the `AllBuildsJsonResource` instance, whose static child mapping is
empty (its `getChild` never calls `putChild`).  `postpathEmpty` is
twisted's `len(request.postpath) == 0` for the trailing-slash branch. -/
def allBuildsGetChildWD (bs : BuilderStatus) (seg : String) (postpathEmpty : Bool) : BNode :=
  if seg = "" ∧ postpathEmpty then .allC
  else if seg = "help" then .helpN allBuildsHelp
  else allBuildsGetChild bs seg

/-- Resolution under `.../builds`: `JsonResource.getChildWithDefault` on
the `BuildsJsonResource` instance, whose static child mapping is
`{'_all': AllBuildsJsonResource}` and whose `getChild` (lines 588-590)
delegates to `self.children['_all'].getChildWithDefault(path, request)`. -/
def buildsGetChildWD (bs : BuilderStatus) (seg : String) (postpathEmpty : Bool) : BNode :=
  if seg = "" ∧ postpathEmpty then .buildsC
  else if seg = "help" then .helpN buildsHelp
  else if seg = "_all" then .allC
  else allBuildsGetChildWD bs seg postpathEmpty

/-- Whether a build passes every filter supplied with the request:
branch filter (empty = no constraint), codebase constraints (all must
match), result-code filter (`None` = no constraint). -/
def buildMatches (branches : List String) (cbs : List (String × String))
    (resultsF : Option (List Int)) (b : Build) : Bool :=
  (branches.isEmpty || branches.contains b.branch)
    && cbs.all (fun c => b.codebases.contains c)
    && (match resultsF with | none => true | some rf => rf.contains b.results)

/-- Modelled from the spec: `BuilderStatus.generateFinishedBuilds` is not
part of the given sources.  Spec §4.3/§6: a full historical scan, most
recent first, yielding only builds satisfying all supplied
codebase/branch/result filters, capped at `num_builds`. -/
def generateFinishedBuilds (bs : BuilderStatus) (branches : List String)
    (cbs : List (String × String)) (resultsF : Option (List Int))
    (numBuilds : Int) : List Build :=
  (bs.history.filter (buildMatches branches cbs resultsF)).take numBuilds.toNat

/-- Method `PastBuildsJsonResource.asDict`, builder branch (lines 541-555):
render the last `number` matching builds from the full history scan. -/
def pastBuildsAsDict (bs : BuilderStatus) (number : Int) (branches : List String)
    (cbs : List (String × String)) (resultsF : Option (List Int)) : List Build :=
  generateFinishedBuilds bs branches cbs resultsF number

/-- Modelled from the spec: `foundCodebasesInBuild` lives in the backing
store.  A build matches when every supplied codebase constraint is
satisfied by its source specification. -/
def foundCodebasesInBuild (b : Build) (cbs : List (String × String)) : Bool :=
  cbs.all (fun c => b.codebases.contains c)

/-- Method `AllBuildsJsonResource.asDict` (lines 503-528), the rendering of
the `_all` node: iterate `i` over `range(0, max)` with
`max = int(RequestArg(request, 'max', cache_size))`, resolve the child at
integer path `-i` (hence through the cache-bounded `getBuild`), skip
non-builds and builds failing the codebase/result filters, and key the
survivors by build number. -/
def allBuildsAsDict (bs : BuilderStatus) (cacheSizeCfg : Nat) (maxArg : Option Nat)
    (cbs : List (String × String)) (resultsF : Option (List Int)) : List (Nat × Build) :=
  let mx := maxArg.getD cacheSizeCfg
  (List.range mx).foldl
    (fun acc i =>
      match getBuild bs (-(i : Int)) with
      | none => acc
      | some b =>
        if !cbs.isEmpty && !foundCodebasesInBuild b cbs then acc
        else if (match resultsF with
                 | some rf => !rf.contains b.results
                 | none => false) then acc
        else setA acc b.number b)
    []

/-- The builder of the spec's worked example: builds numbered 1..10 in the
cache (most recent first), a 30-build history behind it. -/
def demoC4 : BuilderStatus :=
  ⟨(List.range 10).reverse.map (fun i => ⟨i + 1, "trunk", [], 0⟩),
   (List.range 30).reverse.map (fun i => ⟨i + 1, "trunk", [], 0⟩)⟩

/-- A builder with 20 builds of history (numbers 0..19) but only the two
most recent in the bounded cache. -/
def demoC3 : BuilderStatus :=
  ⟨[⟨19, "trunk", [], 0⟩, ⟨18, "trunk", [], 0⟩],
   (List.range 20).reverse.map (fun i => ⟨i, "trunk", [], 0⟩)⟩

/-! ## Build-step children and memoization (`BuildStepsJsonResource`) -/

/-- A build step: its name plus a surrogate object identity, so that two
distinct step objects are distinct values. -/
structure Step where
  name : String
  sid : Nat
deriving DecidableEq

/-- The mutable per-container resolution state: the static child mapping
(`self.children`, name → node instance) and the allocator for fresh node
identities (each Python construction of a child resource yields a new
object; `nextId` is the identity the next construction will get). -/
structure StepsState where
  children : List (String × Nat)
  nextId : Nat
deriving DecidableEq

/-- Python list indexing `l[n]` with negative indices counting from the
end; an out-of-range index raises `IndexError` in the source, returned
here as `none` (the difference does not matter for the claims settled
with this model). -/
def pyIndex {α : Type} (l : List α) (n : Int) : Option α :=
  if 0 ≤ n then l.get? n.toNat
  else if n.natAbs ≤ l.length then l.get? (l.length - n.natAbs) else none

/-- Source lines 633-635: `dict([(step.getName(), step) for step in
steps]).get(path)` — a dict comprehension keeps the last step with a
given name. -/
def stepsDictGet (steps : List Step) (seg : String) : Option Step :=
  steps.reverse.find? (fun s => s.name == seg)

/-- Lines 629-635: integer segments index the step list, other segments go
through the name dict. -/
def findStepFor (steps : List Step) (seg : String) : Option Step :=
  match parseSignedInt seg with
  | some n => pyIndex steps n
  | none => stepsDictGet steps seg

/-- Resolution of a segment under `BuildStepsJsonResource`
(`getChildWithDefault` + `getChild`, lines 627-644), with instance
identity explicit: a memoized child is returned as-is; a freshly found
step allocates a new child instance and memoizes it under the step's
index string and name (`putChild(str(index), child)`,
`putChild(name, child)`). -/
def stepsGetChildWD (steps : List Step) (st : StepsState) (seg : String) :
    Option Nat × StepsState :=
  if seg = "help" then (none, st)
  else
    match lookupA st.children seg with
    | some i => (some i, st)
    | none =>
      match findStepFor steps seg with
      | none => (none, st)
      | some s =>
        let i := st.nextId
        (some i, ⟨setA (setA st.children (toString (steps.indexOf s)) i) s.name i, i + 1⟩)

/-- Resolution results of `AllBuildsJsonResource.getChild` with instance
identity explicit. -/
inductive BNodeA where
  | buildA (b : Build) (id : Nat)
  | lastA (n : Int) (id : Nat)
  | notFoundA
deriving DecidableEq

/-- Method `AllBuildsJsonResource.getChild` with instance identity made
explicit: every `BuildJsonResource(...)` or `PastBuildsJsonResource(...)`
construction allocates a fresh identity, and the container's static child
mapping is never written (the method has no `putChild` call), so a
repeated resolution of the same segment reaches the constructing branch
again. -/
def allBuildsGetChildAlloc (bs : BuilderStatus) (seg : String) (nextId : Nat) :
    BNodeA × Nat :=
  match parseSignedInt seg with
  | some n =>
    match getBuild bs n with
    | some b => (.buildA b nextId, nextId + 1)
    | none => (.notFoundA, nextId)
  | none =>
    if seg.data.contains '<' then (.lastA (parseLt seg) nextId, nextId + 1)
    else (.notFoundA, nextId)

/-- Demo steps list for the memoization witness. -/
def demoSteps : List Step := [⟨"compile", 0⟩, ⟨"test", 1⟩]

/-! ## Queue projections (`QueueJsonResource`,
`SinglePendingBuildsJsonResource`) -/

/-- A pending build request: its id, the codebase specification of its
sources, and its (asynchronously fetched) submit time. -/
structure PendingReq where
  brid : Nat
  codebases : List (String × String)
  submitTime : Int
deriving DecidableEq

/-- Modelled from the spec: `foundCodebasesInPendingBuild` lives in
`buildbot.status.web.builder`, outside the given sources.  An entry
matches when its source specification satisfies every supplied codebase
constraint. -/
def cbMatch (cbs : List (String × String)) (e : PendingReq) : Bool :=
  cbs.all (fun c => e.codebases.contains c)

/-- Ordering by fetched submit time, the key of `sort_queue` (lines
881-884). -/
def submitLe (x y : PendingReq) : Prop := x.submitTime ≤ y.submitTime

instance : DecidableRel submitLe :=
  fun x y => inferInstanceAs (Decidable (x.submitTime ≤ y.submitTime))

instance : IsTotal PendingReq submitLe := ⟨fun _ _ => Int.le_total _ _⟩

instance : IsTrans PendingReq submitLe := ⟨fun _ _ _ h1 h2 => le_trans h1 h2⟩

/-- Method `SinglePendingBuildsJsonResource.asDict` (lines 860-892): keep
an entry when the codebase filter is empty or the entry matches it, fetch
each survivor's submit time, and stably sort ascending by it (Python's
`sorted` with the `sort_value` difference comparator).  The submit-time
fetches are pure lookups here, so the completion order of the
asynchronous calls has no representation — the result depends only on
the fetched values. -/
def singlePendingAsDict (pending : List PendingReq)
    (cbs : List (String × String)) : List PendingReq :=
  let surv := pending.filter (fun br => if cbs.isEmpty then true else cbMatch cbs br)
  List.insertionSort submitLe surv

/-- Method `QueueJsonResource.asDict` (lines 818-835): every unclaimed
request from the store (in the store's own order) is rendered, in order.
The request's codebase arguments are never read — there is no filtering
and no explicit sorting in this method. -/
def queueAsDict (unclaimed : List PendingReq)
    (_cbs : List (String × String)) : List PendingReq :=
  unclaimed

/-- A pending entry matching the demo codebase constraint, submitted late. -/
def qe1 : PendingReq := ⟨1, [("cb", "trunk")], 30⟩

/-- A pending entry violating the demo codebase constraint, submitted early. -/
def qe2 : PendingReq := ⟨2, [("cb", "other")], 10⟩

/-! ## Lemmas about dict assignment, path writing and the walk -/

theorem JDict.lookup_setKey_self :
    ∀ (d : JDict) (k : String) (v : JValue), (d.setKey k v).lookup k = some v
  | .nil, k, v => by simp [JDict.setKey, JDict.lookup]
  | .cons k' w tl, k, v => by
    by_cases h : k' = k
    · simp [JDict.setKey, h, JDict.lookup]
    · simp [JDict.setKey, h, JDict.lookup, JDict.lookup_setKey_self tl k v]

theorem JDict.lookup_setKey_ne :
    ∀ (d : JDict) {k t : String} (v : JValue), k ≠ t →
      (d.setKey k v).lookup t = d.lookup t
  | .nil, k, t, v, h => by simp [JDict.setKey, JDict.lookup, h]
  | .cons k' w tl, k, t, v, h => by
    by_cases hk : k' = k
    · subst hk
      simp [JDict.setKey, JDict.lookup, h]
    · simp [JDict.setKey, hk, JDict.lookup, JDict.lookup_setKey_ne tl v h]

theorem JDict.setKey_setKey_self :
    ∀ (d : JDict) (k : String) (v w : JValue), (d.setKey k v).setKey k w = d.setKey k w
  | .nil, k, v, w => by simp [JDict.setKey]
  | .cons k' u tl, k, v, w => by
    by_cases h : k' = k
    · simp [JDict.setKey, h]
    · simp [JDict.setKey, h, JDict.setKey_setKey_self tl k v w]

theorem getPath_overwritePath (r : JDict) :
    ∀ rest : List String,
      getPath (.jdict (overwritePath .nil rest r)) rest
        = some (.jdict (JDict.update .nil r)) := by
  intro rest
  induction rest with
  | nil => simp [overwritePath, getPath]
  | cons s tl ih => simp [overwritePath, JDict.setKey, getPath, JDict.lookup, ih]

theorem walkSel_cons {c : Option JNode} (h : childIsLeaf c = false)
    (s : String) (rest : List String) :
    walkSel c (s :: rest)
      = (s :: (walkSel (stepChild c s) rest).1, (walkSel (stepChild c s) rest).2) := by
  simp [walkSel, h]

theorem depthOf_slash_concat (a b : String) :
    depthOf (a ++ "/" ++ b) = depthOf a + depthOf b + 1 := by
  unfold depthOf
  rw [String.data_append, String.data_append]
  show (a.data ++ ['/'] ++ b.data).count '/' = _
  simp [List.count_append]
  omega

theorem splitPathAux_slash (bs : List Char) (as : List Char) :
    ∀ acc, splitPathAux (as ++ '/' :: bs) acc
      = splitPathAux as acc ++ splitPathAux bs [] := by
  induction as with
  | nil => intro acc; simp [splitPathAux]
  | cons c tl ih =>
    intro acc
    by_cases h : c = '/'
    · subst h; simp [splitPathAux, ih]
    · simp [splitPathAux, h, ih]

theorem splitPath_slash_concat (a b : String) :
    splitPath (a ++ "/" ++ b) = splitPath a ++ splitPath b := by
  unfold splitPath
  rw [String.data_append, String.data_append]
  show splitPathAux (a.data ++ ['/'] ++ b.data) [] = _
  rw [List.append_assoc]
  exact splitPathAux_slash b.data a.data []

theorem sortSelDesc_pair {x y : String} (h : depthOf x < depthOf y) :
    sortSelDesc [x, y] = [y, x] ∧ sortSelDesc [y, x] = [y, x] := by
  constructor
  · simp [sortSelDesc, insertDepthDesc, h]
  · have h' : ¬ depthOf y < depthOf x := Nat.lt_asymm h
    simp [sortSelDesc, insertDepthDesc, h']

theorem composeItem_absorb (root : JNode) (hleaf : root.isLeaf = false) (d : JDict)
    (p q h0 : String) (tp tq : List String)
    (hp : splitPath p = h0 :: tp) (hq : splitPath q = h0 :: tq) :
    composeItem root (composeItem root d p) q = composeItem root d q := by
  have hcl : childIsLeaf (some root) = false := by simp [childIsLeaf, hleaf]
  unfold composeItem
  rw [hp, hq, walkSel_cons hcl, walkSel_cons hcl]
  simp [overwritePath, JDict.setKey_setKey_self]

/-! ## Claim theorems: output filter (C7) -/

/-- C7: the code contradicts its own docstring ("Returns a copy with None,
False, \"\", [], () and {} removed"): an entry holding the number `0` is
also removed, because Python's membership test uses `==` and `0 == False`.
At the same time the claim's positive examples do hold:
`{"a": [], "b": 1}` filters to `{"b": 1}`, and a list of all-empty elements
becomes `None`.  Evaluated here: `{"a": 0, "b": 1}` filters to `{"b": 1}`,
dropping the numeric entry `"a": 0` that the claim says is kept. -/
theorem filterOut_drops_numeric_zero :
    FilterOut (.jdict (.cons "a" (.jnum 0) (.cons "b" (.jnum 1) .nil)))
      = .jdict (.cons "b" (.jnum 1) .nil)
    ∧ FilterOut (.jdict (.cons "a" (.jlist .nil) (.cons "b" (.jnum 1) .nil)))
      = .jdict (.cons "b" (.jnum 1) .nil)
    ∧ FilterOut (.jlist (.cons (.jstr "") (.cons (.jdict .nil) .nil))) = .null := by
  refine ⟨?_, ?_, ?_⟩ <;> rfl

/-! ## Claim theorems: the selection composer (C1, C2, C9) -/

/-- C1 (counterexample): the selection items `a/b` and `a/c` share the
prefix `a`; `a/b` is processed first (equal depth, stable order), placing
`{"b": {...}}` under `"a"`, but when `a/c` walks the shared segment `a`
the composer executes `node["a"] = {}`, discarding that content: in the
composed document nothing is left at `a/b`, while composing `a/b` alone
does leave its rendering there. -/
theorem compose_discards_sibling_content :
    getPath (.jdict (compose demoRoot ["a/b", "a/c"])) ["a", "b"] = none
    ∧ getPath (.jdict (compose demoRoot ["a/b"])) ["a", "b"]
        = some (.jdict (.cons "v" (.jnum 2) .nil)) :=
  ⟨rfl, rfl⟩

/-- C1 (as amended): for every selection item whose skeleton walk consumes
at least one segment, the composer installs a FRESH nested mapping at the
first consumed segment, replacing whatever any earlier-processed item had
placed there: the item's slot in the document is independent of the prior
document, and only entries at other top-level keys survive. -/
theorem composeItem_fresh_overwrites
    (root : JNode) (d : JDict) (p s : String) (rest : List String) (c : Option JNode)
    (hw : walkSel (some root) (splitPath p) = (s :: rest, c)) :
    composeItem root d p = d.setKey s (.jdict (overwritePath .nil rest (renderChild c)))
    ∧ (composeItem root d p).lookup s = (composeItem root .nil p).lookup s
    ∧ ∀ u, u ≠ s → (composeItem root d p).lookup u = d.lookup u := by
  have h1 : ∀ d' : JDict, composeItem root d' p
      = d'.setKey s (.jdict (overwritePath .nil rest (renderChild c))) := by
    intro d'
    simp only [composeItem]
    rw [hw]
    simp [overwritePath]
  refine ⟨h1 d, ?_, ?_⟩
  · rw [h1 d, h1 JDict.nil, JDict.lookup_setKey_self, JDict.lookup_setKey_self]
  · intro u hu
    rw [h1 d, JDict.lookup_setKey_ne _ _ (Ne.symm hu)]

/-- C1 (witness for the amended theorem), at the concrete tree `demoRoot`,
item `a/b`, prior document `dz`. -/
theorem composeItem_fresh_overwrites_witness :
    (composeItem demoRoot dz "a/b").lookup "a"
      = (composeItem demoRoot JDict.nil "a/b").lookup "a"
    ∧ (composeItem demoRoot dz "a/b").lookup "z" = dz.lookup "z" :=
  ⟨(composeItem_fresh_overwrites demoRoot dz "a/b" "a" ["b"] (some demoB) rfl).2.1,
   (composeItem_fresh_overwrites demoRoot dz "a/b" "a" ["b"] (some demoB) rfl).2.2
      "z" (by decide)⟩

/-- C2: composing the selection `{A, A/B}` (in either input order) yields
the same document as composing `{A}` alone.  `A/B` is deeper, hence
processed first; when `A` is then processed, its walk re-creates a fresh
mapping at the shared first segment, wiping `A/B`'s contribution, and
merges `A`'s own full rendering there — exactly what composing `{A}`
alone produces.  No resolvability of the paths is needed beyond the root
being a container and `A` having at least one segment. -/
theorem compose_overlay_idem
    (root : JNode) (hleaf : root.isLeaf = false)
    (a b : String)
    (ha : stripSlashes a = a)
    (hab : stripSlashes (a ++ "/" ++ b) = a ++ "/" ++ b)
    (h0 : String) (t : List String) (hsplit : splitPath a = h0 :: t) :
    compose root [a, a ++ "/" ++ b] = compose root [a]
    ∧ compose root [a ++ "/" ++ b, a] = compose root [a] := by
  have hd : depthOf a < depthOf (a ++ "/" ++ b) := by
    rw [depthOf_slash_concat]; omega
  obtain ⟨hs1, hs2⟩ := sortSelDesc_pair hd
  have hsplitab : splitPath (a ++ "/" ++ b) = h0 :: (t ++ splitPath b) := by
    rw [splitPath_slash_concat, hsplit]; simp
  have habs := composeItem_absorb root hleaf JDict.nil (a ++ "/" ++ b) a h0
      (t ++ splitPath b) t hsplitab hsplit
  have hsingle : sortSelDesc [a] = [a] := rfl
  constructor
  · unfold compose
    simp only [List.map_cons, List.map_nil]
    rw [ha, hab, hs1, hsingle]
    simp only [List.foldl_cons, List.foldl_nil]
    exact habs
  · unfold compose
    simp only [List.map_cons, List.map_nil]
    rw [ha, hab, hs2, hsingle]
    simp only [List.foldl_cons, List.foldl_nil]
    exact habs

/-- C2 (witness): on the concrete tree `demoRoot`, selecting
`{"a", "a/b"}` composes to the same document as selecting `{"a"}`. -/
theorem compose_overlay_idem_witness :
    compose demoRoot ["a", "a" ++ "/" ++ "b"] = compose demoRoot ["a"]
    ∧ compose demoRoot ["a" ++ "/" ++ "b", "a"] = compose demoRoot ["a"] :=
  compose_overlay_idem demoRoot rfl "a" "b" rfl rfl "a" [] rfl

/-- C9: when one selection item's skeleton walk fails to resolve (its
final child has no `asDict` — twisted's `NoResource`), the composed
document is still produced: that item's slot holds exactly the explicit
`{'error': 'Not available'}` marker, while a resolving item at a
different top-level slot holds its normal full rendering. -/
theorem compose_branch_not_available
    (root : JNode) (p q : String)
    (hp : stripSlashes p = p) (hq : stripSlashes q = q)
    (hdep : depthOf q ≤ depthOf p)
    (sp sq : String) (restp restq : List String) (nq : JNode)
    (hwp : walkSel (some root) (splitPath p) = (sp :: restp, none))
    (hwq : walkSel (some root) (splitPath q) = (sq :: restq, some nq))
    (hne : sp ≠ sq) :
    getPath (.jdict (compose root [p, q])) (sp :: restp)
      = some (.jdict (.cons "error" (.jstr "Not available") .nil))
    ∧ getPath (.jdict (compose root [p, q])) (sq :: restq)
      = some (.jdict (JDict.update .nil nq.render)) := by
  have hsort : sortSelDesc [p, q] = [p, q] := by
    simp [sortSelDesc, insertDepthDesc, Nat.not_lt.mpr hdep]
  have hcomp : compose root [p, q]
      = JDict.setKey
          (JDict.setKey .nil sp (.jdict (overwritePath .nil restp (renderChild none)))) sq
          (.jdict (overwritePath .nil restq (renderChild (some nq)))) := by
    unfold compose
    rw [List.map_cons, List.map_cons, List.map_nil, hp, hq, hsort]
    rw [List.foldl_cons, List.foldl_cons, List.foldl_nil]
    simp only [composeItem]
    rw [hwp, hwq]
    simp [overwritePath]
  constructor
  · rw [hcomp]
    simp only [getPath]
    rw [JDict.lookup_setKey_ne _ _ (Ne.symm hne), JDict.lookup_setKey_self]
    exact getPath_overwritePath (renderChild none) restp
  · rw [hcomp]
    simp only [getPath]
    rw [JDict.lookup_setKey_self]
    exact getPath_overwritePath (renderChild (some nq)) restq

/-- C9 (witness): on `demoRoot`, the selection `{"zz/deep", "a"}` — whose
first item cannot be resolved — still composes, with the marker at
`zz/deep` and the normal rendering of `a` at `a`. -/
theorem compose_branch_not_available_witness :
    getPath (.jdict (compose demoRoot ["zz/deep", "a"])) ["zz", "deep"]
      = some (.jdict (.cons "error" (.jstr "Not available") .nil))
    ∧ getPath (.jdict (compose demoRoot ["zz/deep", "a"])) ["a"]
      = some (.jdict (JDict.update .nil demoA.render)) :=
  compose_branch_not_available demoRoot "zz/deep" "a" rfl rfl (by decide)
    "zz" "a" ["deep"] [] demoA rfl rfl (by decide)

/-! ## Claim theorems: build addressing (C3, C4, C8, C10) -/

theorem lookupA_setA_self {κ α : Type} [DecidableEq κ] (l : List (κ × α)) (k : κ) (v : α) :
    lookupA (setA l k v) k = some v := by
  induction l with
  | nil => simp [setA, lookupA]
  | cons hd tl ih =>
    by_cases h : hd.1 = k
    · simp [setA, h, lookupA]
    · simp [setA, h, lookupA, ih]

/-- C3: the rendering of the `_all` node is NOT the full unbounded build
history: it iterates only `range(0, max)` with `max` defaulting to the
configured cache size, resolving through the cache-bounded `getBuild`.
For a builder with 20 builds of history but a 2-entry cache and cache
configuration 2, an unfiltered `_all` yields a single build (index `-0`
is the absolute build number 0, which is no longer cached; `-1` is the
latest cached build, number 19) — not the 20 builds of history that the
claim and the in-file documentation ("All builds. Warning, reads all
previous build data.") promise. -/
theorem allBuilds_all_is_cache_bounded :
    allBuildsAsDict demoC3 2 none [] none = [(19, ⟨19, "trunk", [], 0⟩)]
    ∧ demoC3.history.length = 20 := by
  exact ⟨by decide, by decide⟩

/-- C4: an integer path segment under a builds container resolves through
the cache-bounded `getBuild`: `n ≥ 0` looks up the build literally
numbered `n` in the cache, `n < 0` takes the `|n|`-th most recent cached
build, and a miss is `NotFound` (twisted's `NoResource`) — there is no
fall-back to the full history. -/
theorem allBuilds_int_addressing (bs : BuilderStatus) (seg : String) (n : Int)
    (h : parseSignedInt seg = some n) :
    (0 ≤ n → allBuildsGetChild bs seg
        = (match bs.cache.find? (fun b => b.number == n.toNat) with
           | some b => BNode.buildN b
           | none => BNode.notFound))
    ∧ (n < 0 → allBuildsGetChild bs seg
        = (match bs.cache.get? (n.natAbs - 1) with
           | some b => BNode.buildN b
           | none => BNode.notFound)) := by
  have h1 : allBuildsGetChild bs seg
      = (match getBuild bs n with
         | some b => BNode.buildN b
         | none => BNode.notFound) := by
    unfold allBuildsGetChild
    rw [h]
  refine ⟨fun hn => ?_, fun hn => ?_⟩
  · rw [h1]
    unfold getBuild
    rw [if_pos hn]
  · rw [h1]
    unfold getBuild
    rw [if_neg (by omega)]

/-- C4 (witness): the spec's worked example, builds 1..10 cached: `-1`
resolves to build 10, `-3` to build 8, `7` to build 7, and `-20` (beyond
the cache) to `NotFound` although the history holds 30 builds. -/
theorem allBuilds_int_addressing_witness :
    allBuildsGetChild demoC4 "-1" = BNode.buildN ⟨10, "trunk", [], 0⟩
    ∧ allBuildsGetChild demoC4 "-3" = BNode.buildN ⟨8, "trunk", [], 0⟩
    ∧ allBuildsGetChild demoC4 "7" = BNode.buildN ⟨7, "trunk", [], 0⟩
    ∧ allBuildsGetChild demoC4 "-20" = BNode.notFound
    ∧ demoC4.history.length = 30 := by
  refine ⟨?_, ?_, ?_, ?_, by decide⟩
  · exact ((allBuilds_int_addressing demoC4 "-1" (-1) (by decide)).2 (by decide)).trans
      (by decide)
  · exact ((allBuilds_int_addressing demoC4 "-3" (-3) (by decide)).2 (by decide)).trans
      (by decide)
  · exact ((allBuilds_int_addressing demoC4 "7" 7 (by decide)).1 (by decide)).trans
      (by decide)
  · exact ((allBuilds_int_addressing demoC4 "-20" (-20) (by decide)).2 (by decide)).trans
      (by decide)

/-- C8: a segment holding the less-than marker (and not parsing as a bare
integer, which the marker excludes) resolves to the last-N list node with
`N = int(segment.replace("<", ""))`, defaulting to 15 when that parse
fails; rendering that node returns the `N` most recent builds satisfying
all supplied branch/codebase/result filters (fewer when history has
fewer).  Concretely, `<5` parses to 5 and `<abc` to the default 15. -/
theorem lastN_addressing (bs : BuilderStatus) (branches : List String)
    (cbs : List (String × String)) (resultsF : Option (List Int)) (seg : String)
    (h1 : parseSignedInt seg = none) (h2 : seg.data.contains '<' = true) :
    allBuildsGetChild bs seg = .lastN (parseLt seg)
    ∧ pastBuildsAsDict bs (parseLt seg) branches cbs resultsF
        = (bs.history.filter (buildMatches branches cbs resultsF)).take (parseLt seg).toNat
    ∧ parseLt "<5" = 5 ∧ parseLt "<abc" = 15 := by
  refine ⟨?_, rfl, by decide, by decide⟩
  unfold allBuildsGetChild
  rw [h1]
  rw [if_pos h2]

/-- C8 (witness): the `<5` segment on the demo builder. -/
theorem lastN_addressing_witness :
    allBuildsGetChild demoC3 "<5" = BNode.lastN (parseLt "<5")
    ∧ pastBuildsAsDict demoC3 (parseLt "<5") [] [] none
        = (demoC3.history.filter (buildMatches [] [] none)).take (parseLt "<5").toNat
    ∧ parseLt "<5" = 5 ∧ parseLt "<abc" = 15 :=
  lastN_addressing demoC3 [] [] none "<5" (by decide) (by decide)

/-- C10 (counterexample): the segment `help` is not a static child of the
builds container (`children = {'_all'}`), yet it does not resolve to what
it resolves to under `_all`: each container returns its own help page,
and the two help texts differ. -/
theorem builds_help_not_delegated :
    buildsGetChildWD demoC4 "help" false = BNode.helpN buildsHelp
    ∧ allBuildsGetChildWD demoC4 "help" false = BNode.helpN allBuildsHelp
    ∧ buildsHelp ≠ allBuildsHelp := by
  exact ⟨rfl, rfl, by decide⟩

/-- C10 (as amended): for every segment other than the trailing-empty
segment, the special `help` segment and the static child `_all`, the
builds container delegates resolution to its `_all` child, so the two
path prefixes resolve the segment to the same node — in particular all
dynamic children (numeric build indices and last-N segments) and all
unresolvable segments. -/
theorem builds_delegates_dynamic (bs : BuilderStatus) (seg : String) (pe : Bool)
    (h1 : seg ≠ "") (h2 : seg ≠ "help") (h3 : seg ≠ "_all") :
    buildsGetChildWD bs seg pe = allBuildsGetChildWD bs seg pe := by
  unfold buildsGetChildWD
  simp [h1, h2, h3]

/-- C10 (witness for the amended theorem): the numeric segment `7`. -/
theorem builds_delegates_dynamic_witness :
    buildsGetChildWD demoC4 "7" false = allBuildsGetChildWD demoC4 "7" false :=
  builds_delegates_dynamic demoC4 "7" false (by decide) (by decide) (by decide)

/-! ## Claim theorems: memoization (C5) -/

/-- C5 (counterexample): `AllBuildsJsonResource` is a dynamic container,
yet resolving the same segment `7` twice constructs two distinct node
instances (identities 0 and 1): its `getChild` never memoizes into the
static child mapping. -/
theorem allBuilds_no_memoization :
    allBuildsGetChildAlloc demoC4 "7" 0 = (BNodeA.buildA ⟨7, "trunk", [], 0⟩ 0, 1)
    ∧ allBuildsGetChildAlloc demoC4 "7" 1 = (BNodeA.buildA ⟨7, "trunk", [], 0⟩ 1, 2)
    ∧ BNodeA.buildA ⟨7, "trunk", [], 0⟩ 0 ≠ BNodeA.buildA ⟨7, "trunk", [], 0⟩ 1 := by
  exact ⟨by decide, by decide, by decide⟩

/-- C5 (as amended): the build-steps container does memoize: when a
non-integer segment resolves (necessarily through the step-name dict, so
the segment is the found step's name and `putChild(name, child)` stores
it), resolving the same segment again returns the same instance and
leaves the container state unchanged. -/
theorem steps_memoize_by_name
    (steps : List Step) (st st' : StepsState) (seg : String) (i : Nat)
    (h : stepsGetChildWD steps st seg = (some i, st'))
    (hnm : parseSignedInt seg = none) :
    stepsGetChildWD steps st' seg = (some i, st') := by
  by_cases hh : seg = "help"
  · simp [stepsGetChildWD, hh] at h
  · cases hl : lookupA st.children seg with
    | some j =>
      simp [stepsGetChildWD, hh, hl] at h
      obtain ⟨hi, hst⟩ := h
      subst hi
      subst hst
      simp [stepsGetChildWD, hh, hl]
    | none =>
      cases hf : findStepFor steps seg with
      | none => simp [stepsGetChildWD, hh, hl, hf] at h
      | some s =>
        simp [stepsGetChildWD, hh, hl, hf] at h
        obtain ⟨hi, hst⟩ := h
        have hname : s.name = seg := by
          have hfind := hf
          unfold findStepFor at hfind
          rw [hnm] at hfind
          unfold stepsDictGet at hfind
          have := List.find?_some hfind
          simpa using this
        subst hi
        subst hst
        simp [stepsGetChildWD, hh]
        rw [hname, lookupA_setA_self]

/-! ## Claim theorems: queue projections (C6) -/

/-- C6 (counterexample): the global queue scope does not apply the
codebase filter — `QueueJsonResource.asDict` never reads the request's
codebase arguments.  With the constraint `cb=trunk` supplied, the entry
`qe2` (whose source specification does not match) is still present in the
global result, contradicting "the result contains exactly the pending
entries whose source specification matches every supplied codebase
constraint" for that scope. -/
theorem queue_global_ignores_codebases :
    queueAsDict [qe1, qe2] [("cb", "trunk")] = [qe1, qe2]
    ∧ cbMatch [("cb", "trunk")] qe2 = false
    ∧ qe2 ∈ queueAsDict [qe1, qe2] [("cb", "trunk")] := by
  exact ⟨rfl, by decide, by decide⟩

/-- C6 (as amended): the single-builder scope keeps exactly the pending
entries passing the codebase filter (all of them when the filter is
empty) and orders them by non-decreasing fetched submit time; the result
is a deterministic function of the fetched values (the asynchronous
completion order has no influence).  The global queue scope returns every
unclaimed request in the backing store's order, with no codebase
filtering of its own. -/
theorem pending_queue_filter_sorted (pending : List PendingReq)
    (cbs : List (String × String)) :
    (singlePendingAsDict pending cbs).Perm
        (pending.filter (fun br => if cbs.isEmpty then true else cbMatch cbs br))
    ∧ (singlePendingAsDict pending cbs).Sorted submitLe
    ∧ ∀ unclaimed : List PendingReq, queueAsDict unclaimed cbs = unclaimed := by
  refine ⟨?_, ?_, fun _ => rfl⟩
  · exact List.perm_insertionSort submitLe _
  · exact List.sorted_insertionSort submitLe _

/-- C5 (witness for the amended theorem): resolving `compile` a first time
allocates instance 0 and memoizes it under `0` and `compile`; resolving
`compile` again returns instance 0 with the state unchanged. -/
theorem steps_memoize_by_name_witness :
    stepsGetChildWD demoSteps ⟨[("0", 0), ("compile", 0)], 1⟩ "compile"
      = (some 0, ⟨[("0", 0), ("compile", 0)], 1⟩) :=
  steps_memoize_by_name demoSteps ⟨[], 0⟩ ⟨[("0", 0), ("compile", 0)], 1⟩ "compile" 0
    (by decide) (by decide)
